import Mathlib

/-!
# Verification of `merge_test_iptv.py`

A shallow embedding of the IPTV playlist combiner. The script fetches
M3U documents, parses `#EXTINF`/URL pairs, removes exact duplicates,
probes a sample of the unique streams (the first and last
`min 50 n` of them), keeps accepted plus unprobed streams, sorts them
case-insensitively by their metadata line, and writes two playlists.

Network effects are modelled by a `ProbeSignal` value per probed URL:
the observable outcome of the single HTTP request `check_url` issues
(a status code, a timeout, a TLS error, a connection error, or any
other exception). Documents are modelled as lists of lines.
-/

/-- The observable outcome of the one network request a probe issues. -/
inductive ProbeSignal : Type
  | status (code : Nat)
  | timeout
  | sslError
  | connError
  | otherError
deriving DecidableEq

/-- The `skip_check_patterns` list hard-coded in `check_url`. -/
def skip_check_patterns : List String :=
  ["youtube.com", "youtu.be", "twitch.tv", "facebook.com", "dailymotion.com",
   ".m3u8", ".mp4", ".ts", "rtmp://", "rtsp://"]

/-- Python's `pattern in url` substring test. -/
def substrOf (p s : String) : Bool := decide (p.toList <:+: s.toList)

/-- The skip-pattern loop at the top of `check_url`. -/
def matchesSkip (url : String) : Bool :=
  skip_check_patterns.any (fun p => substrOf p url)

/-- The accepted status codes `[200, 206, 301, 302, 307, 308]`. -/
def live_status_codes : List Nat := [200, 206, 301, 302, 307, 308]

/-- Python's `str.strip()`: drop leading and trailing whitespace. -/
def pyStrip (s : String) : String :=
  String.mk (((s.data.dropWhile Char.isWhitespace).reverse.dropWhile Char.isWhitespace).reverse)

/-- Python's `s.startswith(pre)`. -/
def pyStartsWith (s pre : String) : Bool :=
  pre.data.isPrefixOf s.data

/-- `check_url`, instrumented with the number of network requests issued.
A URL matching a skip pattern returns `True` before any request; otherwise
one GET is issued and its outcome is classified: an accepted status code,
a TLS error, or any unexpected exception yield `True`; any other status,
a timeout, or a connection error yield `False`. -/
def check_urlT (url : String) (resp : ProbeSignal) : Bool × Nat :=
  if matchesSkip url then (true, 0)
  else
    match resp with
    | ProbeSignal.status c => (decide (c ∈ live_status_codes), 1)
    | ProbeSignal.timeout => (false, 1)
    | ProbeSignal.sslError => (true, 1)
    | ProbeSignal.connError => (false, 1)
    | ProbeSignal.otherError => (true, 1)

/-- The boolean verdict of `check_url`. -/
def check_url (url : String) (resp : ProbeSignal) : Bool :=
  (check_urlT url resp).1

/-- `parse_m3u`: scan the lines; whenever a (stripped) line starts with
`#EXTINF` and the next (stripped) line is non-empty and not a comment,
the pair forms a record. The loop index stops before the last line, so a
trailing metadata line can never start a record. -/
def parse_m3u : List String → List (String × String)
  | a :: b :: rest =>
    if pyStartsWith (pyStrip a) "#EXTINF" && !(pyStrip b == "") && !(pyStartsWith (pyStrip b) "#") then
      (pyStrip a, pyStrip b) :: parse_m3u (b :: rest)
    else
      parse_m3u (b :: rest)
  | _ => []

/-- The dedup loop of `main`, generalized over the dedup key and the
`seen` accumulator: keep an element exactly when its key is unseen. -/
def dedupeAux {α κ : Type} [DecidableEq κ] (key : α → κ) : List α → List κ → List α
  | [], _ => []
  | x :: xs, seen =>
    if key x ∈ seen then dedupeAux key xs seen
    else x :: dedupeAux key xs (key x :: seen)

/-- First-seen-order deduplication by `key`. The script instantiates
`key` with the identity on `(extinf, url)` pairs (exact-pair dedup). -/
def dedupe {α κ : Type} [DecidableEq κ] (key : α → κ) (xs : List α) : List α :=
  dedupeAux key xs []

/-- All records parsed from the fetched documents, concatenated in
source order (a failed fetch contributes an empty document). -/
def all_streams (docs : List (List String)) : List (String × String) :=
  docs.flatMap parse_m3u

/-- `unique_streams`: exact duplicates removed, first occurrence wins. -/
def unique_streams (docs : List (List String)) : List (String × String) :=
  dedupe id (all_streams docs)

/-- `sample_size = min(50, len(unique_streams))`. -/
def sample_size (n : Nat) : Nat := min 50 n

/-- `unique_streams[:sample_size] + unique_streams[-sample_size:]`.
When the list is shorter than twice the sample size the two slices
overlap, so the same record occurs twice in the result. -/
def streams_to_check (u : List (String × String)) : List (String × String) :=
  u.take (sample_size u.length) ++ u.drop (u.length - sample_size u.length)

/-- The probed records whose check returned `True` (appended to
`live_streams` in the executor loop). -/
def checked_kept (net : String → ProbeSignal) (tc : List (String × String)) :
    List (String × String) :=
  tc.filter (fun s => check_url s.2 (net s.2))

/-- The `dead_count` accumulator of the executor loop. -/
def dead_count (net : String → ProbeSignal) (tc : List (String × String)) : Nat :=
  tc.countP (fun s => !check_url s.2 (net s.2))

/-- `[s for s in unique_streams if s not in streams_to_check]`. -/
def unchecked_streams (u tc : List (String × String)) : List (String × String) :=
  u.filter (fun s => !(decide (s ∈ tc)))

/-- `live_streams` just before sorting: the accepted probed records
followed by the unprobed records assumed to be working. -/
def live_streams (docs : List (List String)) (net : String → ProbeSignal) :
    List (String × String) :=
  checked_kept net (streams_to_check (unique_streams docs)) ++
    unchecked_streams (unique_streams docs) (streams_to_check (unique_streams docs))

/-- `len(unique_streams)`, the `totalUnique` of the report. -/
def total_unique (docs : List (List String)) : Nat :=
  (unique_streams docs).length

/-- How many probed records were accepted (the script does not separate
`Live` from `Skipped`: both are counted here). -/
def checked_kept_count (docs : List (List String)) (net : String → ProbeSignal) : Nat :=
  (checked_kept net (streams_to_check (unique_streams docs))).length

/-- The run's `dead_count`. -/
def run_dead_count (docs : List (List String)) (net : String → ProbeSignal) : Nat :=
  dead_count net (streams_to_check (unique_streams docs))

/-- How many records were never probed and assumed working (the
`Unknown(assumed-live)` bucket of the report). -/
def unknown_count (docs : List (List String)) : Nat :=
  (unchecked_streams (unique_streams docs) (streams_to_check (unique_streams docs))).length

/-- Python's `str.lower()` on the metadata line. -/
def lowerKey (s : String) : String := String.mk (s.data.map Char.toLower)

/-- The sort comparison `key=lambda x: x[0].lower()`. -/
def streamLE (a b : String × String) : Bool :=
  decide (lowerKey a.1 ≤ lowerKey b.1)

/-- `live_streams.sort(key=lambda x: x[0].lower())`. -/
def sorted_live (docs : List (List String)) (net : String → ProbeSignal) :
    List (String × String) :=
  (live_streams docs net).mergeSort streamLE

/-- The comment lines written after the header of `combined.m3u`
(`ts` stands for the `time.ctime()` text). The final `""` is the blank
line the double newline after the note leaves. -/
def comment_lines (ts : String) (docs : List (List String))
    (net : String → ProbeSignal) : List String :=
  ["# Generated: " ++ ts,
   "# Sources: " ++ toString docs.length,
   "# Total streams: " ++ toString (live_streams docs net).length,
   "# Note: Not all streams have been verified",
   ""]

/-- The lines of `combined.m3u`: header, comments, then for each kept
record its metadata line, its URL line and a blank separator line. -/
def combined_lines (ts : String) (docs : List (List String))
    (net : String → ProbeSignal) : List String :=
  "#EXTM3U" :: comment_lines ts docs net ++
    (sorted_live docs net).flatMap (fun s => [s.1, s.2, ""])

/-- The lines of `all_streams.m3u`: header, then every unique record in
first-seen order, each as metadata line, URL line, blank line. -/
def all_streams_lines (docs : List (List String)) : List String :=
  "#EXTM3U" :: (unique_streams docs).flatMap (fun s => [s.1, s.2, ""])

/-- `len(live_streams)`: how many records the run keeps. -/
def kept_count (docs : List (List String)) (net : String → ProbeSignal) : Nat :=
  (live_streams docs net).length

/-- The value `main` returns, which becomes the process exit status via
`exit(main())`. The function body is `return 0` on every path. -/
def main_exit (_docs : List (List String)) (_net : String → ProbeSignal) : Nat := 0

/-- A record satisfying the line-shape invariants `parse_m3u` itself
guarantees: a stripped `#EXTINF` metadata line and a stripped,
non-empty, non-comment URL line. -/
def wf_record (s : String × String) : Prop :=
  pyStrip s.1 = s.1 ∧ pyStartsWith s.1 "#EXTINF" = true ∧
    pyStrip s.2 = s.2 ∧ s.2 ≠ "" ∧ pyStartsWith s.2 "#" = false ∧
    pyStartsWith s.2 "#EXTINF" = false

instance wf_record_decidable (s : String × String) : Decidable (wf_record s) := by
  unfold wf_record
  infer_instance

/-- A one-record document used as a concrete run input. -/
def docs_one : List (List String) := [["#EXTINF:-1,A", "http://host.example/a"]]

/-- A network where every probe times out. -/
def net_timeout : String → ProbeSignal := fun _ => ProbeSignal.timeout

/-- A network where every probe answers HTTP 200. -/
def net_ok : String → ProbeSignal := fun _ => ProbeSignal.status 200

/-! ## Properties of the deduplication loop -/

theorem dedupeAux_cons_mem {α κ : Type} [DecidableEq κ] (key : α → κ)
    (x : α) (xs : List α) (seen : List κ) (h : key x ∈ seen) :
    dedupeAux key (x :: xs) seen = dedupeAux key xs seen := by
  simp only [dedupeAux, if_pos h]

theorem dedupeAux_cons_not_mem {α κ : Type} [DecidableEq κ] (key : α → κ)
    (x : α) (xs : List α) (seen : List κ) (h : key x ∉ seen) :
    dedupeAux key (x :: xs) seen = x :: dedupeAux key xs (key x :: seen) := by
  simp only [dedupeAux, if_neg h]

theorem dedupeAux_sublist {α κ : Type} [DecidableEq κ] (key : α → κ) :
    ∀ (xs : List α) (seen : List κ), (dedupeAux key xs seen).Sublist xs
  | [], _ => List.Sublist.refl []
  | x :: xs, seen => by
    by_cases h : key x ∈ seen
    · rw [dedupeAux_cons_mem key x xs seen h]
      exact (dedupeAux_sublist key xs seen).cons x
    · rw [dedupeAux_cons_not_mem key x xs seen h]
      exact (dedupeAux_sublist key xs (key x :: seen)).cons₂ x

theorem dedupeAux_key_not_seen {α κ : Type} [DecidableEq κ] (key : α → κ) :
    ∀ (xs : List α) (seen : List κ) (y : α),
      y ∈ dedupeAux key xs seen → key y ∉ seen
  | [], _, y => by intro h; exact absurd h (List.not_mem_nil y)
  | x :: xs, seen, y => by
    by_cases h : key x ∈ seen
    · rw [dedupeAux_cons_mem key x xs seen h]
      exact dedupeAux_key_not_seen key xs seen y
    · rw [dedupeAux_cons_not_mem key x xs seen h]
      intro hy
      rcases List.mem_cons.mp hy with rfl | hy
      · exact h
      · have hrec := dedupeAux_key_not_seen key xs (key x :: seen) y hy
        exact fun hmem => hrec (List.mem_cons_of_mem _ hmem)

theorem dedupeAux_pairwise {α κ : Type} [DecidableEq κ] (key : α → κ) :
    ∀ (xs : List α) (seen : List κ),
      (dedupeAux key xs seen).Pairwise (fun a b => key a ≠ key b)
  | [], _ => List.Pairwise.nil
  | x :: xs, seen => by
    by_cases h : key x ∈ seen
    · rw [dedupeAux_cons_mem key x xs seen h]
      exact dedupeAux_pairwise key xs seen
    · rw [dedupeAux_cons_not_mem key x xs seen h]
      refine List.Pairwise.cons ?_ (dedupeAux_pairwise key xs (key x :: seen))
      intro y hy hkey
      exact dedupeAux_key_not_seen key xs (key x :: seen) y hy
        (hkey ▸ List.mem_cons_self (key x) seen)

theorem dedupeAux_idem {α κ : Type} [DecidableEq κ] (key : α → κ) :
    ∀ (xs : List α) (seen : List κ),
      dedupeAux key (dedupeAux key xs seen) seen = dedupeAux key xs seen
  | [], _ => rfl
  | x :: xs, seen => by
    by_cases h : key x ∈ seen
    · rw [dedupeAux_cons_mem key x xs seen h]
      exact dedupeAux_idem key xs seen
    · rw [dedupeAux_cons_not_mem key x xs seen h,
        dedupeAux_cons_not_mem key x (dedupeAux key xs (key x :: seen)) seen h]
      exact congrArg (x :: ·) (dedupeAux_idem key xs (key x :: seen))

theorem dedupe_sublist {α κ : Type} [DecidableEq κ] (key : α → κ) (xs : List α) :
    (dedupe key xs).Sublist xs :=
  dedupeAux_sublist key xs []

theorem dedupe_idem {α κ : Type} [DecidableEq κ] (key : α → κ) (xs : List α) :
    dedupe key (dedupe key xs) = dedupe key xs :=
  dedupeAux_idem key xs []

theorem dedupe_pairwise {α κ : Type} [DecidableEq κ] (key : α → κ) (xs : List α) :
    (dedupe key xs).Pairwise (fun a b => key a ≠ key b) :=
  dedupeAux_pairwise key xs []

theorem unique_streams_nodup (docs : List (List String)) :
    (unique_streams docs).Nodup :=
  dedupe_pairwise id (all_streams docs)

/-! ## Properties of the parser -/

theorem parse_m3u_cons_not_meta (a : String)
    (ha : pyStartsWith (pyStrip a) "#EXTINF" = false) (L : List String) :
    parse_m3u (a :: L) = parse_m3u L := by
  cases L with
  | nil => simp [parse_m3u]
  | cons b rest => simp [parse_m3u, ha]

theorem parse_m3u_cons_meta (a b : String)
    (ha : pyStartsWith (pyStrip a) "#EXTINF" = true)
    (hb1 : (pyStrip b == "") = false)
    (hb2 : pyStartsWith (pyStrip b) "#" = false) (rest : List String) :
    parse_m3u (a :: b :: rest) = (pyStrip a, pyStrip b) :: parse_m3u (b :: rest) := by
  simp [parse_m3u, ha, hb1, hb2]

theorem wf_record_not_meta_url (e u : String) (h : wf_record (e, u)) :
    pyStartsWith (pyStrip u) "#EXTINF" = false := by
  obtain ⟨-, -, hu, -, -, h6⟩ := h
  rw [hu]
  exact h6

/-- Parsing a document that is exactly the flattening of well-formed
metadata/URL pairs recovers exactly those pairs, in order. -/
theorem parse_m3u_flat_pairs :
    ∀ (recs : List (String × String)), (∀ r ∈ recs, wf_record r) →
      parse_m3u (recs.flatMap (fun s => [s.1, s.2])) = recs
  | [], _ => rfl
  | (e, u) :: rest, h => by
    have he := h (e, u) (List.mem_cons_self _ _)
    obtain ⟨he1, he2, hu1, hu2, hu3, -⟩ := he
    have hmeta : pyStartsWith (pyStrip e) "#EXTINF" = true := by rw [he1]; exact he2
    have hne : (pyStrip u == "") = false := by
      rw [hu1]
      exact beq_eq_false_iff_ne.mpr hu2
    have hnc : pyStartsWith (pyStrip u) "#" = false := by rw [hu1]; exact hu3
    show parse_m3u (e :: u :: rest.flatMap (fun s => [s.1, s.2])) = _
    rw [parse_m3u_cons_meta e u hmeta hne hnc, he1, hu1]
    rw [parse_m3u_cons_not_meta u (wf_record_not_meta_url e u (h _ (List.mem_cons_self _ _)))]
    rw [parse_m3u_flat_pairs rest (fun r hr => h r (List.mem_cons_of_mem _ hr))]

/-- Same, with one dangling metadata line appended at the end of the
document: the dangling line contributes no record. -/
theorem parse_m3u_flat_pairs_dangling :
    ∀ (recs : List (String × String)), (∀ r ∈ recs, wf_record r) →
      ∀ (dm : String),
        parse_m3u (recs.flatMap (fun s => [s.1, s.2]) ++ [dm]) = recs
  | [], _, dm => rfl
  | (e, u) :: rest, h, dm => by
    have he := h (e, u) (List.mem_cons_self _ _)
    obtain ⟨he1, he2, hu1, hu2, hu3, -⟩ := he
    have hmeta : pyStartsWith (pyStrip e) "#EXTINF" = true := by rw [he1]; exact he2
    have hne : (pyStrip u == "") = false := by
      rw [hu1]
      exact beq_eq_false_iff_ne.mpr hu2
    have hnc : pyStartsWith (pyStrip u) "#" = false := by rw [hu1]; exact hu3
    show parse_m3u (e :: u :: (rest.flatMap (fun s => [s.1, s.2]) ++ [dm])) = _
    rw [parse_m3u_cons_meta e u hmeta hne hnc, he1, hu1]
    rw [parse_m3u_cons_not_meta u (wf_record_not_meta_url e u (h _ (List.mem_cons_self _ _)))]
    rw [parse_m3u_flat_pairs_dangling rest (fun r hr => h r (List.mem_cons_of_mem _ hr)) dm]

/-- Parsing the flattening with a blank separator line after every pair
(the shape of the emitted playlists) also recovers exactly the pairs. -/
theorem parse_m3u_flat_triples :
    ∀ (recs : List (String × String)), (∀ r ∈ recs, wf_record r) →
      parse_m3u (recs.flatMap (fun s => [s.1, s.2, ""])) = recs
  | [], _ => rfl
  | (e, u) :: rest, h => by
    have he := h (e, u) (List.mem_cons_self _ _)
    obtain ⟨he1, he2, hu1, hu2, hu3, -⟩ := he
    have hmeta : pyStartsWith (pyStrip e) "#EXTINF" = true := by rw [he1]; exact he2
    have hne : (pyStrip u == "") = false := by
      rw [hu1]
      exact beq_eq_false_iff_ne.mpr hu2
    have hnc : pyStartsWith (pyStrip u) "#" = false := by rw [hu1]; exact hu3
    show parse_m3u (e :: u :: "" :: rest.flatMap (fun s => [s.1, s.2, ""])) = _
    rw [parse_m3u_cons_meta e u hmeta hne hnc, he1, hu1]
    rw [parse_m3u_cons_not_meta u (wf_record_not_meta_url e u (h _ (List.mem_cons_self _ _)))]
    rw [parse_m3u_cons_not_meta "" (by decide)]
    rw [parse_m3u_flat_triples rest (fun r hr => h r (List.mem_cons_of_mem _ hr))]

/-! ## Counting lemmas for the probe sample -/

theorem length_filter_add_countP_not {α : Type} (p : α → Bool) (l : List α) :
    (l.filter p).length + l.countP (fun a => !p a) = l.length := by
  induction l with
  | nil => rfl
  | cons x xs ih =>
    cases h : p x <;> simp [List.filter_cons, List.countP_cons, h] <;> omega

theorem length_filter_add_length_filter_not {α : Type} (p : α → Bool) (l : List α) :
    (l.filter p).length + (l.filter (fun a => !p a)).length = l.length := by
  induction l with
  | nil => rfl
  | cons x xs ih =>
    cases h : p x <;> simp [List.filter_cons, h, ← ih] <;> omega

theorem streams_to_check_subset (u : List (String × String)) :
    ∀ x ∈ streams_to_check u, x ∈ u := by
  intro x hx
  rcases List.mem_append.mp hx with hx | hx
  · exact List.take_subset _ u hx
  · exact List.drop_subset _ u hx

/-- With no duplicates anywhere, the probed sample and the unprobed rest
partition the unique list, so the outcome counts add up to its length. -/
theorem sample_partition_length (u tc : List (String × String))
    (hu : u.Nodup) (htc : tc.Nodup) (hsub : ∀ x ∈ tc, x ∈ u) :
    tc.length + (unchecked_streams u tc).length = u.length := by
  have hperm : (u.filter (fun s => decide (s ∈ tc))).Perm tc := by
    refine (List.perm_ext_iff_of_nodup (hu.filter _) htc).mpr ?_
    intro x
    constructor
    · intro hx
      exact of_decide_eq_true (List.mem_filter.mp hx).2
    · intro hx
      exact List.mem_filter.mpr ⟨hsub x hx, decide_eq_true hx⟩
  have hlen : (u.filter (fun s => decide (s ∈ tc))).length = tc.length :=
    hperm.length_eq
  have hsplit :
      (u.filter (fun s => decide (s ∈ tc))).length +
        (u.filter (fun s => !(decide (s ∈ tc)))).length = u.length :=
    length_filter_add_length_filter_not _ u
  unfold unchecked_streams
  omega

/-- When the unique list has at least 100 elements the first-50 and
last-50 slices are disjoint, and the sample is a sublist of the list. -/
theorem streams_to_check_sublist_of_big (u : List (String × String))
    (h : 100 ≤ u.length) : (streams_to_check u).Sublist u := by
  have hs : sample_size u.length = 50 := Nat.min_eq_left (by omega)
  unfold streams_to_check
  rw [hs]
  have h1 : (u.drop (u.length - 50)).Sublist (u.drop 50) :=
    List.drop_sublist_drop_left u (by omega)
  have h2 := h1.append_left (u.take 50)
  rw [List.take_append_drop] at h2
  exact h2

/-! ## The sort comparison is transitive and total -/

theorem streamLE_trans : ∀ (a b c : String × String),
    streamLE a b → streamLE b c → streamLE a c := by
  intro a b c hab hbc
  simp only [streamLE, decide_eq_true_eq] at hab hbc ⊢
  exact le_trans hab hbc

theorem streamLE_total : ∀ (a b : String × String),
    streamLE a b || streamLE b a := by
  intro a b
  simp only [streamLE, Bool.or_eq_true, decide_eq_true_eq]
  exact le_total _ _

/-! ## Claims -/

/-- Claim C1, counterexample: with a single unique record the sample
`unique_streams[:1] + unique_streams[-1:]` contains that record twice,
both copies are probed and accepted, and the outcome counts sum to 2
while `totalUnique = 1`. -/
theorem c1_counterexample :
    checked_kept_count docs_one net_ok + run_dead_count docs_one net_ok +
      unknown_count docs_one ≠ total_unique docs_one := by decide

/-- Claim C1 (amended): the outcome counts
(accepted-from-sample, which conflates Live and Skipped, plus dead,
plus unprobed-assumed-live) sum to `totalUnique` exactly when the
sampled subset does not overlap itself, i.e. when the unique set is
empty or has at least 100 elements. -/
theorem c1_counts_consistent (docs : List (List String))
    (net : String → ProbeSignal)
    (h : total_unique docs = 0 ∨ 100 ≤ total_unique docs) :
    checked_kept_count docs net + run_dead_count docs net + unknown_count docs
      = total_unique docs := by
  have hu : (unique_streams docs).Nodup := unique_streams_nodup docs
  have htc : (streams_to_check (unique_streams docs)).Nodup := by
    rcases h with h | h
    · have hnil : unique_streams docs = [] := List.length_eq_zero.mp h
      rw [hnil]
      decide
    · exact (streams_to_check_sublist_of_big _ h).nodup hu
  have hsub := streams_to_check_subset (unique_streams docs)
  have hpart := sample_partition_length (unique_streams docs)
    (streams_to_check (unique_streams docs)) hu htc hsub
  have hcnt := length_filter_add_countP_not
    (fun s => check_url s.2 (net s.2)) (streams_to_check (unique_streams docs))
  unfold checked_kept_count run_dead_count unknown_count total_unique checked_kept dead_count
  omega

/-- Witness for C1: the empty run satisfies the no-overlap hypothesis
and the counts sum to the (zero) unique total. -/
theorem c1_counts_consistent_witness :
    (total_unique [] = 0 ∨ 100 ≤ total_unique []) ∧
      checked_kept_count [] net_timeout + run_dead_count [] net_timeout +
        unknown_count [] = total_unique [] :=
  ⟨Or.inl (by decide), c1_counts_consistent [] net_timeout (Or.inl (by decide))⟩

/-- Claim C2, counterexample: a run in which every probe times out keeps
zero records, yet `main` still returns exit status 0. -/
theorem c2_counterexample :
    kept_count docs_one net_timeout = 0 ∧ main_exit docs_one net_timeout = 0 := by
  decide

/-- Claim C2 (amended): `main` ends in `return 0` unconditionally, so
the exit status is 0 on every run, whether or not any record is kept. -/
theorem c2_exit_always_zero (docs : List (List String))
    (net : String → ProbeSignal) : main_exit docs net = 0 := rfl

/-- Claim C3, counterexample: an unexpected probe exception on a
non-skipped URL is accepted (`True`), the very same verdict an HTTP 200
receives — there is no third `Unknown` classification and no policy. -/
theorem c3_counterexample :
    check_url "http://host.example/a" ProbeSignal.otherError = true ∧
      check_url "http://host.example/a" ProbeSignal.otherError
        = check_url "http://host.example/a" (ProbeSignal.status 200) := by
  decide

/-- Claim C3 (amended): a probe error that is not a timeout, connection
failure, TLS failure or HTTP status is unconditionally accepted — the
record counts toward the kept output exactly like a live one, with no
policy toggle. -/
theorem c3_exception_always_kept (url : String) :
    check_url url ProbeSignal.otherError = true := by
  unfold check_url check_urlT
  by_cases h : matchesSkip url <;> simp [h]

/-- Claim C4: a document that is exactly K well-formed metadata/URL
pairs parses to exactly those K records in source order; with one
dangling metadata line appended at the end (K metadata lines but K−1
URL lines), parsing yields only the K−1 complete records. -/
theorem c4_parse_pairs (recs : List (String × String)) (dm : String)
    (h : ∀ r ∈ recs, wf_record r)
    (hd : pyStartsWith (pyStrip dm) "#EXTINF" = true) :
    parse_m3u (recs.flatMap (fun s => [s.1, s.2])) = recs
    ∧ parse_m3u (recs.flatMap (fun s => [s.1, s.2]) ++ [dm]) = recs :=
  ⟨parse_m3u_flat_pairs recs h, parse_m3u_flat_pairs_dangling recs h dm⟩

/-- Witness for C4 on a concrete two-record document with a concrete
dangling metadata line. -/
theorem c4_parse_pairs_witness :
    (∀ r ∈ [("#EXTINF:-1,A", "http://host.example/a"),
            ("#EXTINF:-1,B", "http://host.example/b")], wf_record r)
    ∧ pyStartsWith (pyStrip "#EXTINF:-1,C") "#EXTINF" = true
    ∧ (parse_m3u ([("#EXTINF:-1,A", "http://host.example/a"),
          ("#EXTINF:-1,B", "http://host.example/b")].flatMap (fun s => [s.1, s.2]))
        = [("#EXTINF:-1,A", "http://host.example/a"),
           ("#EXTINF:-1,B", "http://host.example/b")]
      ∧ parse_m3u ([("#EXTINF:-1,A", "http://host.example/a"),
          ("#EXTINF:-1,B", "http://host.example/b")].flatMap (fun s => [s.1, s.2])
            ++ ["#EXTINF:-1,C"])
        = [("#EXTINF:-1,A", "http://host.example/a"),
           ("#EXTINF:-1,B", "http://host.example/b")]) :=
  ⟨by decide, by decide,
    c4_parse_pairs _ "#EXTINF:-1,C" (by decide) (by decide)⟩

/-- Claim C5: deduplication returns a sublist (hence no longer than, and
preserving first-seen order of, its input), is idempotent, leaves no two
records with an equal dedup key, and under endpoint-keyed dedup no two
output records share an endpoint. -/
theorem c5_dedupe_spec {κ : Type} [DecidableEq κ]
    (key : (String × String) → κ) (xs : List (String × String)) :
    (dedupe key xs).length ≤ xs.length
    ∧ (dedupe key xs).Sublist xs
    ∧ dedupe key (dedupe key xs) = dedupe key xs
    ∧ (dedupe key xs).Pairwise (fun a b => key a ≠ key b)
    ∧ (dedupe Prod.snd xs).Pairwise (fun a b => a.2 ≠ b.2) :=
  ⟨(dedupe_sublist key xs).length_le, dedupe_sublist key xs,
    dedupe_idem key xs, dedupe_pairwise key xs, dedupe_pairwise Prod.snd xs⟩

/-- Claim C6: for a probed (non-skipped) endpoint, a response status is
accepted exactly when it is one of 200, 206, 301, 302, 307, 308; a
timeout is rejected; a connection failure is rejected. -/
theorem c6_classification (url : String) (h : matchesSkip url = false)
    (c : Nat) :
    (check_url url (ProbeSignal.status c) = true ↔ c ∈ live_status_codes)
    ∧ check_url url ProbeSignal.timeout = false
    ∧ check_url url ProbeSignal.connError = false := by
  refine ⟨?_, ?_, ?_⟩ <;> simp [check_url, check_urlT, h]

/-- Witness for C6 at a concrete non-skipped URL and status 200. -/
theorem c6_classification_witness :
    matchesSkip "http://host.example/a" = false ∧
      ((check_url "http://host.example/a" (ProbeSignal.status 200) = true
          ↔ 200 ∈ live_status_codes)
        ∧ check_url "http://host.example/a" ProbeSignal.timeout = false
        ∧ check_url "http://host.example/a" ProbeSignal.connError = false) :=
  ⟨by decide, c6_classification "http://host.example/a" (by decide) 200⟩

/-- Claim C7: an endpoint matching a skip pattern is accepted
immediately with zero network requests, whatever the network would have
answered. -/
theorem c7_skip_no_network (url : String) (h : matchesSkip url = true)
    (resp : ProbeSignal) : check_urlT url resp = (true, 0) := by
  unfold check_urlT
  simp [h]

/-- Witness for C7 at a concrete skip-listed URL. -/
theorem c7_skip_no_network_witness :
    matchesSkip "https://www.youtube.com/watch" = true ∧
      check_urlT "https://www.youtube.com/watch" ProbeSignal.timeout = (true, 0) :=
  ⟨by decide, c7_skip_no_network "https://www.youtube.com/watch" (by decide)
    ProbeSignal.timeout⟩

/-- Claim C8, counterexample: a TLS failure on a probed (non-skipped)
URL is accepted after its one request — there is no strict mode under
which it would be rejected; SSL verification is disabled unconditionally
and the `SSLError` handler always returns `True`. -/
theorem c8_counterexample :
    check_urlT "http://host.example/a" ProbeSignal.sslError = (true, 1) := by
  decide

/-- Claim C8 (amended): a TLS/certificate failure is always classified
as accepted (the lenient behavior is hard-coded); no configuration flag
selects a strict variant. -/
theorem c8_ssl_always_accepted (url : String) :
    check_url url ProbeSignal.sslError = true := by
  unfold check_url check_urlT
  by_cases h : matchesSkip url <;> simp [h]

/-- Claim C9: `combined.m3u` is the header marker line, the comment
lines, then each kept record as its metadata line, its URL line and a
blank separator; the emitted records are pairwise ordered by the
case-insensitive metadata key and are a permutation of the kept
records. -/
theorem c9_output_sorted (ts : String) (docs : List (List String))
    (net : String → ProbeSignal) :
    combined_lines ts docs net
      = "#EXTM3U" :: comment_lines ts docs net ++
          (sorted_live docs net).flatMap (fun s => [s.1, s.2, ""])
    ∧ (sorted_live docs net).Pairwise (fun a b => streamLE a b = true)
    ∧ (sorted_live docs net).Perm (live_streams docs net) :=
  ⟨rfl, List.sorted_mergeSort streamLE_trans streamLE_total _,
    List.mergeSort_perm _ _⟩

/-- Claim C10: `all_streams.m3u` is the header marker line followed by
every unique record — unfiltered by probe outcome and in first-seen
deduplication order — and parsing it back recovers exactly
`unique_streams`. -/
theorem c10_all_streams_output (docs : List (List String))
    (h : ∀ r ∈ unique_streams docs, wf_record r) :
    all_streams_lines docs
      = "#EXTM3U" :: (unique_streams docs).flatMap (fun s => [s.1, s.2, ""])
    ∧ parse_m3u (all_streams_lines docs) = unique_streams docs := by
  refine ⟨rfl, ?_⟩
  show parse_m3u ("#EXTM3U" :: _) = _
  rw [parse_m3u_cons_not_meta "#EXTM3U" (by decide)]
  exact parse_m3u_flat_triples (unique_streams docs) h

/-- Witness for C10 on a concrete one-record run. -/
theorem c10_all_streams_output_witness :
    (∀ r ∈ unique_streams docs_one, wf_record r) ∧
      (all_streams_lines docs_one
        = "#EXTM3U" :: (unique_streams docs_one).flatMap (fun s => [s.1, s.2, ""])
      ∧ parse_m3u (all_streams_lines docs_one) = unique_streams docs_one) :=
  ⟨by decide, c10_all_streams_output docs_one (by decide)⟩
